import Mathlib

/-!
Shallow embedding of the intelligent upload pipeline of
`src/backend/modules/upload/service.py` (the service wired into the
application by `src/backend/main.py`), together with the configuration
constants of `src/backend/core/config.py` and the persisted shapes of
`src/backend/modules/upload/models.py`.

Python strings are modelled as Lean `String`, raw payload bytes as
`List Nat`, and the database rows written by one upload attempt as plain
lists carried in the result.  The two sources of runtime nondeterminism
are passed in as parameters: the outcome of the parser-service HTTP call
(`ParserCall`) and the per-file database-write outcome in the Direct
strategy (`fileErr : FileRec -> Option String`, `none` meaning the write
succeeds, faithful to the per-file `try/except` of `_upload_direct`).
-/

namespace Realm

/-! ### String helpers mirroring Python `str` / `pathlib` operations -/

/-- Test whether `pat` is a prefix of `s`, on character lists. -/
def charsHasPre : List Char → List Char → Bool
  | [], _ => true
  | _ :: _, [] => false
  | a :: as, b :: bs => a == b && charsHasPre as bs

/-- Test whether `pat` occurs as a contiguous run inside `s`. -/
def charsHasSub (pat : List Char) : List Char → Bool
  | [] => charsHasPre pat []
  | b :: bs => charsHasPre pat (b :: bs) || charsHasSub pat bs

/-- Python `pat in hay` on strings: substring containment. -/
def strHasSub (hay pat : String) : Bool :=
  charsHasSub pat.data hay.data

/-- Python `hay.startswith(pat)` on strings. -/
def strStartsWith (hay pat : String) : Bool :=
  charsHasPre pat.data hay.data

/-- Python `hay.endswith(pat)` on strings. -/
def strEndsWith (hay pat : String) : Bool :=
  charsHasPre pat.data.reverse hay.data.reverse

/-- Python `str.lower` on one character, for the ASCII range the
pipeline's extensions and filenames use. -/
def lowerChar (c : Char) : Char :=
  if 65 ≤ c.toNat ∧ c.toNat ≤ 90 then Char.ofNat (c.toNat + 32) else c

/-- Python `s.lower()`. -/
def strToLower (s : String) : String :=
  String.mk (s.data.map lowerChar)

/-- Python `s.split(c)` for a one-character separator: the segments
between occurrences of `c`, one segment more than there are occurrences. -/
def splitChar (c : Char) : List Char → List (List Char)
  | [] => [[]]
  | a :: as =>
    match splitChar c as with
    | [] => [[a]]
    | h :: t => if a == c then [] :: h :: t else (a :: h) :: t

/-- Python `pathlib.PurePath(p).name`: the last nonempty `/`-separated
component of the path. -/
def pathName (p : String) : String :=
  String.mk ((((splitChar '/' p.data).filter (fun c => c ≠ [])).getLast?).getD [])

/-- Python `pathlib.PurePath(p).suffix`: the part of the name from its last
dot on, empty when the only dot is the leading or the trailing character. -/
def pathSuffix (p : String) : String :=
  let n := (pathName p).data
  match n.reverse.findIdx? (fun c => c == '.') with
  | none => ""
  | some j =>
    let i := n.length - 1 - j
    if 0 < i ∧ i < n.length - 1 then String.mk (n.drop i) else ""

/-- Python `len(s.split(chr(10)))`: one more than the number of newline
characters. -/
def pyLineCount (s : String) : Nat :=
  (splitChar '\n' s.data).length

/-! ### UTF-8 decoding as Python `bytes.decode` performs it

`utf8Valid` is strict decoding success; `utf8DecodeIgnore` is
`decode(..., errors = ignore)`: an ill-formed sequence's maximal valid
subpart is skipped and decoding resumes at the following byte. -/

/-- A UTF-8 continuation byte. -/
def contOk (b : Nat) : Bool := 128 ≤ b && b ≤ 191

/-- Lower bound of the second byte given the first byte of a sequence. -/
def snd2Lo (b : Nat) : Nat :=
  if b == 224 then 160 else if b == 240 then 144 else 128

/-- Upper bound of the second byte given the first byte of a sequence. -/
def snd2Hi (b : Nat) : Nat :=
  if b == 237 then 159 else if b == 244 then 143 else 191

/-- Fuel-indexed lossy UTF-8 decoder returning code points; the fuel is
the byte count, enough because every step consumes at least one byte. -/
def utf8DecodeIgnoreAux : Nat → List Nat → List Nat
  | 0, _ => []
  | _, [] => []
  | fuel + 1, b :: rest =>
    if b < 128 then b :: utf8DecodeIgnoreAux fuel rest
    else if 194 ≤ b ∧ b ≤ 223 then
      match rest with
      | [] => []
      | c1 :: rest1 =>
        if contOk c1 then
          ((b - 192) * 64 + (c1 - 128)) :: utf8DecodeIgnoreAux fuel rest1
        else utf8DecodeIgnoreAux fuel rest
    else if 224 ≤ b ∧ b ≤ 239 then
      match rest with
      | [] => []
      | c1 :: rest1 =>
        if snd2Lo b ≤ c1 ∧ c1 ≤ snd2Hi b then
          match rest1 with
          | [] => []
          | c2 :: rest2 =>
            if contOk c2 then
              ((b - 224) * 4096 + (c1 - 128) * 64 + (c2 - 128)) ::
                utf8DecodeIgnoreAux fuel rest2
            else utf8DecodeIgnoreAux fuel rest1
        else utf8DecodeIgnoreAux fuel rest
    else if 240 ≤ b ∧ b ≤ 244 then
      match rest with
      | [] => []
      | c1 :: rest1 =>
        if snd2Lo b ≤ c1 ∧ c1 ≤ snd2Hi b then
          match rest1 with
          | [] => []
          | c2 :: rest2 =>
            if contOk c2 then
              match rest2 with
              | [] => []
              | c3 :: rest3 =>
                if contOk c3 then
                  ((b - 240) * 262144 + (c1 - 128) * 4096 +
                    (c2 - 128) * 64 + (c3 - 128)) ::
                    utf8DecodeIgnoreAux fuel rest3
                else utf8DecodeIgnoreAux fuel rest2
            else utf8DecodeIgnoreAux fuel rest1
        else utf8DecodeIgnoreAux fuel rest
    else utf8DecodeIgnoreAux fuel rest

/-- Python `raw.decode(utf8, errors = ignore)` as a Lean string. -/
def utf8DecodeIgnore (raw : List Nat) : String :=
  String.mk ((utf8DecodeIgnoreAux raw.length raw).map Char.ofNat)

/-- Fuel-indexed strict UTF-8 validity check. -/
def utf8ValidAux : Nat → List Nat → Bool
  | 0, l => l.isEmpty
  | _, [] => true
  | fuel + 1, b :: rest =>
    if b < 128 then utf8ValidAux fuel rest
    else if 194 ≤ b ∧ b ≤ 223 then
      match rest with
      | [] => false
      | c1 :: rest1 => contOk c1 && utf8ValidAux fuel rest1
    else if 224 ≤ b ∧ b ≤ 239 then
      match rest with
      | [] => false
      | c1 :: rest1 =>
        (snd2Lo b ≤ c1 && c1 ≤ snd2Hi b) &&
          match rest1 with
          | [] => false
          | c2 :: rest2 => contOk c2 && utf8ValidAux fuel rest2
    else if 240 ≤ b ∧ b ≤ 244 then
      match rest with
      | [] => false
      | c1 :: rest1 =>
        (snd2Lo b ≤ c1 && c1 ≤ snd2Hi b) &&
          match rest1 with
          | [] => false
          | c2 :: rest2 =>
            contOk c2 &&
              match rest2 with
              | [] => false
              | c3 :: rest3 => contOk c3 && utf8ValidAux fuel rest3
    else false

/-- Python `raw.decode(utf8)` succeeding without error. -/
def utf8Valid (raw : List Nat) : Bool :=
  utf8ValidAux raw.length raw

/-! ### Data model (`modules/upload/models.py`, `modules/upload/schemas.py`) -/

/-- Values of `UploadMethod` in `modules/upload/schemas.py`. -/
inductive UploadMethod where
  | parser
  | direct
  deriving DecidableEq, Repr

/-- Values of `UploadStatus` in `modules/upload/schemas.py`. -/
inductive UploadStatus where
  | pending
  | processing
  | completed
  | failed
  deriving DecidableEq, Repr

/-- Values of `SessionStatus` in `modules/upload/schemas.py`. -/
inductive SessionStatus where
  | active
  | completed
  | failed
  | expired
  deriving DecidableEq, Repr

/-- One mid-pipeline file dictionary as built by `_extract_project_files`
and `_extract_archive`: the single-file branch builds it without the
`is_binary` key, modelled as `is_binary = none`. -/
structure FileRec where
  filename : String
  relative_path : String
  content : String
  size : Nat
  is_binary : Option Bool := none
  deriving DecidableEq, Repr

/-- One entry yielded by `zipfile.ZipFile.infolist()` on the uploaded
archive: its path inside the archive, whether it is a directory entry,
its declared size and its raw bytes. -/
structure ZipEntry where
  filename : String
  is_dir : Bool := false
  file_size : Nat := 0
  contentBytes : List Nat := []
  deriving DecidableEq, Repr

/-- The columns of the `projects` table that the upload pipeline writes. -/
structure ProjectRow where
  id : Nat
  name : String := ""
  upload_method : UploadMethod
  upload_status : UploadStatus
  file_size : Nat := 0
  parser_version : Option String := none
  deriving DecidableEq, Repr

/-- The columns of the `project_files` table that the upload pipeline
writes.  `is_binary` carries the model default `false` of
`modules/upload/models.py` line 58. -/
structure ProjectFileRow where
  project_id : Nat
  filename : String
  file_path : String
  relative_path : String
  file_extension : String
  file_size : Nat
  content : String
  parsed_data : Option String := none
  language : Option String := none
  loc : Nat := 0
  is_binary : Bool := false
  deriving DecidableEq, Repr

/-- The mutable state of one `upload_sessions` row, with the column
defaults of `modules/upload/models.py` (`status = active`,
counters zero, no errors or warnings); `upload_method = parser` because
`upload_project_intelligent` creates the session with
`UploadMethod.PARSER`. -/
structure SessionState where
  status : SessionStatus := .active
  upload_method : UploadMethod := .parser
  total_files : Nat := 0
  processed_files : Nat := 0
  failed_files : Nat := 0
  errors : List String := []
  warnings : List String := []
  project_id : Option Nat := none
  deriving DecidableEq, Repr

/-- The `UploadSettings` fields of `core/config.py` that the pipeline
reads, with their declared defaults. -/
structure Config where
  parser_service_enabled : Bool := true
  max_project_size : Nat := 500
  allowed_extensions : List String :=
    [".cbl", ".cob", ".cpy", ".jcl", ".CBL", ".CPY", ".JCL", ".COB"]
  deriving Repr

/-! ### Leaf pipeline functions -/

/-- The `skip_patterns` list of `_should_skip_file`. -/
def skipPatterns : List String :=
  ["__pycache__", ".git", ".svn", ".hg", "node_modules",
   ".DS_Store", "Thumbs.db", ".vscode", ".idea",
   "dist", "build", "target", "bin", "obj"]

/-- `_should_skip_file`: skip when any pattern occurs inside the path, or
when the whole path starts with a dot. -/
def shouldSkipFile (filename : String) : Bool :=
  skipPatterns.any (fun pat => strHasSub filename pat) ||
    strStartsWith filename "."

/-- The `ext_to_lang` dictionary of `_detect_language`, in source order. -/
def extToLang : List (String × String) :=
  [(".cbl", "cobol"), (".cob", "cobol"), (".CBL", "cobol"),
   (".cpy", "cobol"), (".CPY", "cobol"),
   (".jcl", "jcl"), (".JCL", "jcl")]

/-- `_detect_language`: look the lowercased suffix of the filename up in
`ext_to_lang`. -/
def detectLanguage (filename : String) : Option String :=
  extToLang.lookup (strToLower (pathSuffix filename))

/-- The `FileRec` that `_extract_archive` appends for one surviving zip
entry: strict UTF-8 decode marks `is_binary = false`, a decode error
falls back to lossy decoding and marks `is_binary = true`. -/
def archiveFileRec (e : ZipEntry) : FileRec :=
  { filename := pathName e.filename
    relative_path := e.filename
    content := utf8DecodeIgnore e.contentBytes
    size := e.file_size
    is_binary := some (!utf8Valid e.contentBytes) }

/-- `_extract_archive` over the archive's entry list: directory entries
and entries matching `_should_skip_file` are dropped, every other entry
is emitted in iteration order. -/
def extractArchive (entries : List ZipEntry) : List FileRec :=
  entries.foldr
    (fun e acc =>
      if e.is_dir then acc
      else if shouldSkipFile e.filename then acc
      else archiveFileRec e :: acc)
    []

/-- The extension filter of `_extract_project_files`: pass when the
lowercased suffix is in the configured allow-list or is empty. -/
def passesFilter (cfg : Config) (f : FileRec) : Bool :=
  let ext := strToLower (pathSuffix f.filename)
  cfg.allowed_extensions.contains ext || ext == ""

/-- The filtering loop of `_extract_project_files`. -/
def filterFiles (cfg : Config) (files : List FileRec) : List FileRec :=
  files.filter (passesFilter cfg)

/-- Archive detection of `_extract_project_files`: by lowercased filename
suffix only. -/
def isArchiveName (filename : String) : Bool :=
  let low := strToLower filename
  strEndsWith low ".zip" || strEndsWith low ".tar" ||
    strEndsWith low ".tar.gz" || strEndsWith low ".tgz"

/-- One raw upload: the declared filename, the raw payload bytes, and the
entry list the zip reader yields when the payload is read as an archive. -/
structure Upload where
  filename : String
  payload : List Nat
  entries : List ZipEntry

/-- `_extract_project_files`: reject oversize payloads with HTTP 413
before any extraction, then extract (archive or single file) and filter.
The single-file branch decodes the payload lossily and builds its record
without an `is_binary` key. -/
def extractProjectFiles (cfg : Config) (u : Upload) :
    Except (Nat × String) (List FileRec) :=
  if cfg.max_project_size * 1024 * 1024 < u.payload.length then
    .error (413, "File too large. Max size: " ++
      toString cfg.max_project_size ++ "MB")
  else
    let files :=
      if isArchiveName u.filename then extractArchive u.entries
      else
        [{ filename := u.filename
           relative_path := u.filename
           content := utf8DecodeIgnore u.payload
           size := u.payload.length }]
    .ok (filterFiles cfg files)

/-! ### Ingestion strategies and the orchestrator -/

/-- Outcome of the parser-service HTTP round trip in `_upload_via_parser`:
a transport error (`httpx.RequestError`), a non-2xx status
(`httpx.HTTPStatusError` out of `raise_for_status`), or a decoded
`ParserResponse` with its `success`, `error`, `version` and per-file
`data.files` payload keyed by relative path. -/
inductive ParserCall where
  | transportError (msg : String)
  | statusError (code : Nat)
  | response (success : Bool) (error : Option String) (version : Option String)
      (dataFiles : List (String × String))
  deriving DecidableEq, Repr

/-- The exception message, if any, with which `_upload_via_parser` fails
before creating any row: the three failure classes of the call. -/
def parserCallFails : ParserCall → Option String
  | .transportError m => some ("Parser service unavailable: " ++ m)
  | .statusError c => some ("Parser service error: " ++ toString c)
  | .response ok err _ _ =>
    if ok then none else some ("Parser failed: " ++ err.getD "None")

/-- Python `sum(f.get(size, 0) for f in files)`. -/
def sumSizes (files : List FileRec) : Nat :=
  (files.map (fun f => f.size)).foldr (· + ·) 0

/-- One row built by `_create_project_files_from_parser`: per-file parser
payload looked up by relative path, language from the extension table,
`is_binary` defaulting to `false` when the key is absent, and line count
zero for binary files. -/
def createProjectFileFromParser (pid : Nat) (dataFiles : List (String × String))
    (f : FileRec) : ProjectFileRow :=
  { project_id := pid
    filename := f.filename
    file_path := f.relative_path
    relative_path := f.relative_path
    file_extension := pathSuffix f.filename
    file_size := f.size
    content := f.content
    parsed_data := dataFiles.lookup f.relative_path
    language := detectLanguage f.filename
    is_binary := f.is_binary.getD false
    loc := if f.is_binary.getD false then 0 else pyLineCount f.content }

/-- One row built by `_create_project_file_direct`. -/
def createProjectFileDirect (pid : Nat) (f : FileRec) : ProjectFileRow :=
  { project_id := pid
    filename := f.filename
    file_path := f.relative_path
    relative_path := f.relative_path
    file_extension := pathSuffix f.filename
    file_size := f.size
    content := f.content
    parsed_data := none
    language := detectLanguage f.filename
    is_binary := f.is_binary.getD false
    loc := if f.is_binary.getD false then 0 else pyLineCount f.content }

/-- `_upload_via_parser` on a session: a failed call raises before any
row exists; a successful call creates the project row, one file row per
input file, and completes both the session and the project. -/
def uploadViaParser (pc : ParserCall) (pid : Nat) (session : SessionState)
    (files : List FileRec) :
    Except String (ProjectRow × SessionState × List ProjectFileRow) :=
  match pc with
  | .transportError m => .error ("Parser service unavailable: " ++ m)
  | .statusError c => .error ("Parser service error: " ++ toString c)
  | .response ok err ver dataFiles =>
    if !ok then .error ("Parser failed: " ++ err.getD "None")
    else
      let project : ProjectRow :=
        { id := pid
          upload_method := .parser
          upload_status := .processing
          file_size := sumSizes files
          parser_version := ver }
      let rows := files.map (createProjectFileFromParser pid dataFiles)
      let session1 :=
        { session with
            project_id := some pid
            status := .completed
            processed_files := files.length }
      .ok ({ project with upload_status := .completed }, session1, rows)

/-- The per-file loop state of `_upload_direct`: processed counter,
failed counter, the session being mutated, and the file rows written. -/
def directStep (fileErr : FileRec → Option String) (pid : Nat)
    (acc : Nat × Nat × SessionState × List ProjectFileRow) (f : FileRec) :
    Nat × Nat × SessionState × List ProjectFileRow :=
  let (p, fl, s, rs) := acc
  match fileErr f with
  | none =>
    (p + 1, fl, { s with processed_files := p + 1 },
     rs ++ [createProjectFileDirect pid f])
  | some r =>
    (p, fl + 1,
     { s with errors := s.errors ++
         ["Failed to process " ++ f.filename ++ ": " ++ r] },
     rs)

/-- `_upload_direct`: create the project row, process each file with the
per-file `try/except`, then apply the three-way final status policy.
Per-file write outcomes are injected through `fileErr`. -/
def uploadDirect (fileErr : FileRec → Option String) (pid : Nat)
    (session : SessionState) (files : List FileRec) :
    ProjectRow × SessionState × List ProjectFileRow :=
  let project0 : ProjectRow :=
    { id := pid
      upload_method := .direct
      upload_status := .processing
      file_size := sumSizes files }
  let acc := files.foldl (directStep fileErr pid) (0, 0, session, [])
  let pCount := acc.1
  let fCount := acc.2.1
  let session1 := acc.2.2.1
  let rows := acc.2.2.2
  let session2 :=
    { session1 with project_id := some pid, failed_files := fCount }
  if fCount == 0 then
    ({ project0 with upload_status := .completed },
     { session2 with status := .completed }, rows)
  else if 0 < pCount then
    ({ project0 with upload_status := .completed },
     { session2 with
         status := .completed
         warnings := [toString fCount ++ " files failed to process"] }, rows)
  else
    ({ project0 with upload_status := .failed },
     { session2 with status := .failed }, rows)

/-- The value returned to the caller of `upload_project_intelligent`
together with the rows visible in the store afterwards: `outcome` is the
returned project id or the `HTTPException` (status, detail) raised. -/
structure OrchResult where
  outcome : Except (Nat × String) Nat
  session : SessionState
  projects : List ProjectRow
  files : List ProjectFileRow
  deriving Repr

/-- `upload_project_intelligent`: create the session, extract and filter
(any failure there is caught at the orchestrator boundary: session
failed, error appended, HTTP 500 raised), set `total_files`, then try the
Parser strategy when enabled, falling back to the Direct strategy with
`upload_method = direct` and a `Parser failed: ...` error recorded. -/
def uploadProjectIntelligent (cfg : Config) (pc : ParserCall)
    (fileErr : FileRec → Option String) (u : Upload) : OrchResult :=
  let session0 : SessionState := {}
  match extractProjectFiles cfg u with
  | .error (_, detail) =>
    { outcome := .error (500, "Upload failed: " ++ detail)
      session :=
        { session0 with status := .failed, errors := session0.errors ++ [detail] }
      projects := []
      files := [] }
  | .ok files =>
    let session1 := { session0 with total_files := files.length }
    if cfg.parser_service_enabled then
      match uploadViaParser pc 1 session1 files with
      | .ok res =>
        { outcome := .ok res.1.id
          session := res.2.1
          projects := [res.1]
          files := res.2.2 }
      | .error reason =>
        let session2 :=
          { session1 with
              upload_method := .direct
              errors := ["Parser failed: " ++ reason] }
        let out := uploadDirect fileErr 1 session2 files
        { outcome := .ok out.1.id
          session := out.2.1
          projects := [out.1]
          files := out.2.2 }
    else
      let out := uploadDirect fileErr 1 session1 files
      { outcome := .ok out.1.id
        session := out.2.1
        projects := [out.1]
        files := out.2.2 }

/-! ### Write/commit trace of the Parser strategy

`_upload_via_parser` issues its persistence operations in this order:
`db.add(project); commit; db.add(project_file)` once per file (inside
`_create_project_files_from_parser`); the session and project status
mutations; a final `commit`.  `runParserWrites` replays a prefix of that
trace — a failure injected before operation `k` leaves exactly the
writes committed so far visible. -/

/-- One persistence operation of `_upload_via_parser`. -/
inductive POp where
  | addProject
  | commitOp
  | addFile (f : FileRec)
  | finalizeStatuses
  deriving DecidableEq, Repr

/-- The operation sequence of `_upload_via_parser` lines 287-314. -/
def parserOps (files : List FileRec) : List POp :=
  [.addProject, .commitOp] ++ files.map .addFile ++
    [.finalizeStatuses, .commitOp]

/-- Pending (uncommitted) and committed (visible) writes of the attempt. -/
structure PTxState where
  pendingProject : Bool := false
  pendingFiles : List FileRec := []
  pendingFinal : Bool := false
  dbProject : Bool := false
  dbFiles : List FileRec := []
  dbFinal : Bool := false
  deriving DecidableEq, Repr

/-- Apply one persistence operation: adds stage writes, a commit makes
every staged write visible at once. -/
def stepPOp (s : PTxState) : POp → PTxState
  | .addProject => { s with pendingProject := true }
  | .addFile f => { s with pendingFiles := s.pendingFiles ++ [f] }
  | .finalizeStatuses => { s with pendingFinal := true }
  | .commitOp =>
    { pendingProject := false
      pendingFiles := []
      pendingFinal := false
      dbProject := s.dbProject || s.pendingProject
      dbFiles := s.dbFiles ++ s.pendingFiles
      dbFinal := s.dbFinal || s.pendingFinal }

/-- Replay the Parser strategy's write trace; `failAt = some k` injects a
failure at (before applying) operation `k`. -/
def runParserWrites (files : List FileRec) (failAt : Option Nat) : PTxState :=
  (match failAt with
   | some k => (parserOps files).take k
   | none => parserOps files).foldl stepPOp {}

/-! ### Helper lemmas -/

/-- A successful association-list lookup returns one of the stored values. -/
theorem lookup_mem_values {α β : Type} [BEq α] (l : List (α × β)) (k : α)
    (v : β) (h : l.lookup k = some v) : v ∈ l.map Prod.snd := by
  induction l with
  | nil => simp [List.lookup] at h
  | cons kv rest ih =>
    rw [List.lookup] at h
    cases hkv : k == kv.1 with
    | true => rw [hkv] at h; injection h with h2; simp [h2]
    | false => rw [hkv] at h; simpa using Or.inr (ih h)

/-! ### C5 — language detection -/

/-- C5 counterexample: the claim says the language detector maps `.py` to
`python`; `_detect_language` has no `.py` entry, so a Python file gets no
language tag. -/
theorem c5_counterexample : detectLanguage "main.py" = none := by decide

/-- C5 (amended): the language detector is a pure lookup keyed on the
file's lowercase extension — it depends on nothing but the lowercased
suffix — and it maps `.cbl`, `.cob`, `.cpy` to `cobol` and `.jcl` to
`jcl` (case-insensitively); but it maps `.py` to no language at all, and
no extension whatsoever is mapped to `python`. -/
theorem c5_language_lookup :
    (∀ p q : String, strToLower (pathSuffix p) = strToLower (pathSuffix q) →
      detectLanguage p = detectLanguage q) ∧
    detectLanguage "a.cbl" = some "cobol" ∧
    detectLanguage "a.cob" = some "cobol" ∧
    detectLanguage "a.cpy" = some "cobol" ∧
    detectLanguage "a.jcl" = some "jcl" ∧
    detectLanguage "A.CBL" = some "cobol" ∧
    detectLanguage "dir/B.JCL" = some "jcl" ∧
    detectLanguage "a.py" = none ∧
    (∀ p : String, detectLanguage p ≠ some "python") := by
  refine ⟨?_, by decide, by decide, by decide, by decide, by decide, by decide,
    by decide, ?_⟩
  · intro p q h
    unfold detectLanguage
    rw [h]
  · intro p h
    have hv := lookup_mem_values extToLang (strToLower (pathSuffix p)) "python" h
    revert hv
    decide

/-! ### C6 — archive entry skipping -/

/-- C6 counterexample: the claim says an entry whose basename starts with
a dot is skipped; `_should_skip_file` tests the whole path against
`startswith`, so `src/.env` — whose basename `.env` starts with a dot —
is not skipped and is emitted by the extraction loop. -/
theorem c6_counterexample :
    shouldSkipFile "src/.env" = false ∧
    strStartsWith (pathName "src/.env") "." = true ∧
    extractArchive [{ filename := "src/.env", contentBytes := [97] }] =
      [{ filename := ".env", relative_path := "src/.env", content := "a",
         size := 0, is_binary := some false }] := by decide

/-- C6 (amended): during archive extraction an entry is skipped if and
only if it is a directory entry, or its path contains one of the fixed
skip substrings, or its whole path (not its basename) starts with a dot;
every surviving entry is emitted, in order. -/
theorem c6_archive_skip (entries : List ZipEntry) :
    extractArchive entries =
      (entries.filter (fun e => !e.is_dir &&
        !(skipPatterns.any (fun pat => strHasSub e.filename pat) ||
          strStartsWith e.filename "."))).map archiveFileRec := by
  induction entries with
  | nil => rfl
  | cons e es ih =>
    rw [extractArchive, List.foldr_cons, ← extractArchive, ih, List.filter_cons]
    cases hd : e.is_dir
    · cases hs : ((skipPatterns.any fun pat => strHasSub e.filename pat) ||
        strStartsWith e.filename ".")
      · simp [hd, shouldSkipFile, hs]
      · simp [hd, shouldSkipFile, hs]
    · simp [hd]

/-! ### C7 — extension filter -/

/-- C7: a file passes the classification filter if and only if its
lowercase extension is in the configured allow-list or it is empty (no
extension); the filter never fails, files failing it are silently
dropped, and the survivors keep their relative order (the output is a
sublist of the input). -/
theorem c7_extension_filter (cfg : Config) (files : List FileRec) :
    List.Sublist (filterFiles cfg files) files ∧
    ∀ f : FileRec,
      f ∈ filterFiles cfg files ↔
        f ∈ files ∧
          (cfg.allowed_extensions.contains (strToLower (pathSuffix f.filename)) = true ∨
            strToLower (pathSuffix f.filename) = "") := by
  constructor
  · exact List.filter_sublist files
  · intro f
    rw [filterFiles, List.mem_filter, passesFilter]
    simp

/-- Invariants of the per-file loop of `_upload_direct`: the two counters
sum to the number of files consumed, the session's `processed_files`
tracks the processed counter, and the loop only ever appends to the
session's error list, leaving every other session field unchanged. -/
theorem directFold_spec (fe : FileRec → Option String) (pid : Nat) :
    ∀ (files : List FileRec) (p fl : Nat) (s : SessionState)
      (rs : List ProjectFileRow) (p2 fl2 : Nat) (s2 : SessionState)
      (rs2 : List ProjectFileRow),
      s.processed_files = p →
      files.foldl (directStep fe pid) (p, fl, s, rs) = (p2, fl2, s2, rs2) →
      p2 + fl2 = p + fl + files.length ∧
      s2.processed_files = p2 ∧
      s2.failed_files = s.failed_files ∧
      s2.total_files = s.total_files ∧
      s2.status = s.status ∧
      s2.upload_method = s.upload_method ∧
      s2.project_id = s.project_id ∧
      ∃ es, s2.errors = s.errors ++ es := by
  intro files
  induction files with
  | nil =>
    intro p fl s rs p2 fl2 s2 rs2 hp hfold
    simp only [List.foldl_nil, Prod.mk.injEq] at hfold
    obtain ⟨rfl, rfl, rfl, rfl⟩ := hfold
    exact ⟨by simp, hp, rfl, rfl, rfl, rfl, rfl, [], by simp⟩
  | cons f fs ih =>
    intro p fl s rs p2 fl2 s2 rs2 hp hfold
    rw [List.foldl_cons] at hfold
    simp only [directStep] at hfold
    cases hfe : fe f with
    | none =>
      rw [hfe] at hfold
      obtain ⟨hsum, hproc, hfail, htot, hstat, hmeth, hpid, es, herr⟩ :=
        ih (p + 1) fl { s with processed_files := p + 1 }
          (rs ++ [createProjectFileDirect pid f]) p2 fl2 s2 rs2 rfl hfold
      exact ⟨by rw [hsum, List.length_cons]; omega,
        hproc, hfail, htot, hstat, hmeth, hpid, es, herr⟩
    | some r =>
      rw [hfe] at hfold
      obtain ⟨hsum, hproc, hfail, htot, hstat, hmeth, hpid, es, herr⟩ :=
        ih p (fl + 1)
          { s with errors := s.errors ++
              ["Failed to process " ++ f.filename ++ ": " ++ r] } rs
          p2 fl2 s2 rs2 hp hfold
      refine ⟨by rw [hsum, List.length_cons]; omega,
        hproc, hfail, htot, hstat, hmeth, hpid, ?_⟩
      exact ⟨["Failed to process " ++ f.filename ++ ": " ++ r] ++ es,
        by rw [herr]; simp⟩

/-- Behaviour of `_upload_direct` on a fresh session: the project row it
creates is a `direct` one with the requested id, the final counters sum
to the number of input files, it never touches `total_files` or
`upload_method`, it only appends to the error list, and it always leaves
the session `completed` or `failed`. -/
theorem uploadDirect_spec (fe : FileRec → Option String) (pid : Nat)
    (s : SessionState) (files : List FileRec) (hp : s.processed_files = 0) :
    (uploadDirect fe pid s files).1.upload_method = .direct ∧
    (uploadDirect fe pid s files).1.id = pid ∧
    (uploadDirect fe pid s files).2.1.processed_files +
      (uploadDirect fe pid s files).2.1.failed_files = files.length ∧
    (uploadDirect fe pid s files).2.1.total_files = s.total_files ∧
    (uploadDirect fe pid s files).2.1.upload_method = s.upload_method ∧
    ((uploadDirect fe pid s files).2.1.status = .completed ∨
      (uploadDirect fe pid s files).2.1.status = .failed) ∧
    (∃ es, (uploadDirect fe pid s files).2.1.errors = s.errors ++ es) := by
  obtain ⟨⟨p2, fl2, s2, rs2⟩, hfold⟩ :
      ∃ x, files.foldl (directStep fe pid) (0, 0, s, []) = x := ⟨_, rfl⟩
  obtain ⟨hsum, hproc, hfail, htot, hstat, hmeth, hpid, es, herr⟩ :=
    directFold_spec fe pid files 0 0 s [] p2 fl2 s2 rs2 hp hfold
  have hlen : p2 + fl2 = files.length := by omega
  simp only [uploadDirect, hfold]
  by_cases h0 : fl2 = 0
  · rw [if_pos (by simp [h0])]
    refine ⟨rfl, rfl, ?_, htot, hmeth, Or.inl rfl, es, herr⟩
    show s2.processed_files + fl2 = files.length
    omega
  · rw [if_neg (by simpa using h0)]
    by_cases hq : 0 < p2
    · rw [if_pos hq]
      refine ⟨rfl, rfl, ?_, htot, hmeth, Or.inl rfl, es, herr⟩
      show s2.processed_files + fl2 = files.length
      omega
    · rw [if_neg hq]
      refine ⟨rfl, rfl, ?_, htot, hmeth, Or.inr rfl, es, herr⟩
      show s2.processed_files + fl2 = files.length
      omega

/-- A parser call that fails in any of the three ways makes
`_upload_via_parser` raise with the corresponding message, before any
row of the attempt exists. -/
theorem uploadViaParser_error (pc : ParserCall) (pid : Nat)
    (s : SessionState) (files : List FileRec) (r : String)
    (h : parserCallFails pc = some r) :
    uploadViaParser pc pid s files = .error r := by
  cases pc with
  | transportError m =>
    simp only [parserCallFails, Option.some.injEq] at h
    simp only [uploadViaParser]
    rw [h]
  | statusError c =>
    simp only [parserCallFails, Option.some.injEq] at h
    simp only [uploadViaParser]
    rw [h]
  | response ok err ver dataFiles =>
    cases ok with
    | true => simp [parserCallFails] at h
    | false =>
      simp only [parserCallFails] at h
      simp only [uploadViaParser]
      simp only [Bool.not_false, if_true] at h ⊢
      simp at h
      rw [h]

/-! ### C2 — zero valid files -/

/-- C2 counterexample: a single-file upload whose only file is dropped by
the extension filter leaves zero valid files, yet the claimed
"No valid files to process" failure does not happen — the upload
succeeds, an (empty) Project row is created, the session completes and
its error list stays empty. -/
theorem c2_counterexample :
    (uploadProjectIntelligent { parser_service_enabled := false }
      (.response true none none []) (fun _ => none)
      ⟨"notes.xyz", [104, 105], []⟩).outcome = .ok 1 ∧
    (uploadProjectIntelligent { parser_service_enabled := false }
      (.response true none none []) (fun _ => none)
      ⟨"notes.xyz", [104, 105], []⟩).projects ≠ [] ∧
    (uploadProjectIntelligent { parser_service_enabled := false }
      (.response true none none []) (fun _ => none)
      ⟨"notes.xyz", [104, 105], []⟩).session.status = .completed ∧
    (uploadProjectIntelligent { parser_service_enabled := false }
      (.response true none none []) (fun _ => none)
      ⟨"notes.xyz", [104, 105], []⟩).session.errors = [] :=
  ⟨rfl, by decide, rfl, rfl⟩

/-- C2 (amended): an upload whose extraction-and-filtering phase yields
zero valid files is not rejected: no error is raised, a (degenerate,
empty) Project row is still created by whichever strategy runs, and the
session finishes in the `completed` state. -/
theorem c2_zero_files_completes (cfg : Config) (pc : ParserCall)
    (fe : FileRec → Option String) (u : Upload)
    (hex : extractProjectFiles cfg u = .ok []) :
    (uploadProjectIntelligent cfg pc fe u).outcome = .ok 1 ∧
    (uploadProjectIntelligent cfg pc fe u).projects ≠ [] ∧
    (uploadProjectIntelligent cfg pc fe u).session.status = .completed := by
  simp only [uploadProjectIntelligent, hex]
  cases hpe : cfg.parser_service_enabled
  · exact ⟨rfl, List.cons_ne_nil _ _, rfl⟩
  · cases pc with
    | transportError m => exact ⟨rfl, List.cons_ne_nil _ _, rfl⟩
    | statusError c => exact ⟨rfl, List.cons_ne_nil _ _, rfl⟩
    | response ok err ver dataF =>
      cases ok
      · exact ⟨rfl, List.cons_ne_nil _ _, rfl⟩
      · exact ⟨rfl, List.cons_ne_nil _ _, rfl⟩

/-- C2 witness: the amended statement instantiated at the disallowed
single-file upload of the counterexample. -/
theorem c2_zero_files_completes_witness :
    extractProjectFiles { parser_service_enabled := false }
      ⟨"notes.xyz", [104, 105], []⟩ = .ok [] ∧
    (uploadProjectIntelligent { parser_service_enabled := false }
      (.statusError 502) (fun _ => none)
      ⟨"notes.xyz", [104, 105], []⟩).session.status = .completed :=
  ⟨rfl, (c2_zero_files_completes { parser_service_enabled := false }
    (.statusError 502) (fun _ => none) ⟨"notes.xyz", [104, 105], []⟩ rfl).2.2⟩

/-! ### C3 — parser fallback -/

/-- C3: whenever the parser call fails — transport error, non-2xx
status, or a `success = false` response — the resulting session's
`upload_method` is `direct`, its error list contains a
`Parser failed: ...` entry, and a Project row is still produced through
the Direct strategy. -/
theorem c3_parser_fallback (cfg : Config) (pc : ParserCall)
    (fe : FileRec → Option String) (u : Upload) (files : List FileRec)
    (reason : String)
    (hen : cfg.parser_service_enabled = true)
    (hex : extractProjectFiles cfg u = .ok files)
    (hfail : parserCallFails pc = some reason)
    (hne : files ≠ []) :
    (uploadProjectIntelligent cfg pc fe u).session.upload_method = .direct ∧
    (∃ rest, ("Parser failed: " ++ rest) ∈
      (uploadProjectIntelligent cfg pc fe u).session.errors) ∧
    (∃ proj ∈ (uploadProjectIntelligent cfg pc fe u).projects,
      proj.upload_method = .direct) ∧
    (uploadProjectIntelligent cfg pc fe u).outcome = .ok 1 := by
  simp only [uploadProjectIntelligent, hex, hen]
  rw [uploadViaParser_error pc 1 _ files reason hfail]
  obtain ⟨hm, hid, hcnt, htot, hmeth, hstat, es, herr⟩ :=
    uploadDirect_spec fe 1
      { upload_method := .direct
        total_files := files.length
        errors := ["Parser failed: " ++ reason] } files rfl
  refine ⟨hmeth.trans rfl, ⟨reason, ?_⟩, ⟨_, List.mem_cons_self _ _, hm⟩,
    congrArg Except.ok hid⟩
  show ("Parser failed: " ++ reason) ∈
    (uploadDirect fe 1
      { upload_method := .direct
        total_files := files.length
        errors := ["Parser failed: " ++ reason] } files).2.1.errors
  rw [herr]
  exact List.mem_cons_self _ _

/-- C3 witness: the fallback law applied to a COBOL single-file upload
with a parser that answers HTTP 502. -/
theorem c3_parser_fallback_witness :
    ({} : Config).parser_service_enabled = true ∧
    parserCallFails (.statusError 502) = some "Parser service error: 502" ∧
    (uploadProjectIntelligent {} (.statusError 502) (fun _ => none)
      ⟨"a.cbl", [104], []⟩).session.upload_method = .direct ∧
    (∃ rest, ("Parser failed: " ++ rest) ∈
      (uploadProjectIntelligent {} (.statusError 502) (fun _ => none)
        ⟨"a.cbl", [104], []⟩).session.errors) :=
  ⟨rfl, rfl,
    (c3_parser_fallback {} (.statusError 502) (fun _ => none)
      ⟨"a.cbl", [104], []⟩
      [{ filename := "a.cbl", relative_path := "a.cbl", content := "h",
         size := 1 }]
      "Parser service error: 502" rfl rfl rfl (by decide)).1,
    (c3_parser_fallback {} (.statusError 502) (fun _ => none)
      ⟨"a.cbl", [104], []⟩
      [{ filename := "a.cbl", relative_path := "a.cbl", content := "h",
         size := 1 }]
      "Parser service error: 502" rfl rfl rfl (by decide)).2.1⟩

/-! ### C4 — counter invariant -/

/-- C4: for every session that ends `completed` or `failed`,
`processed_files + failed_files ≤ total_files`; and whenever a Direct
run completed the upload (parser disabled or parser failed, upload
returned normally), the counters sum exactly to `total_files`. -/
theorem c4_counter_invariant (cfg : Config) (pc : ParserCall)
    (fe : FileRec → Option String) (u : Upload) :
    ((uploadProjectIntelligent cfg pc fe u).session.status = .completed ∨
        (uploadProjectIntelligent cfg pc fe u).session.status = .failed →
      (uploadProjectIntelligent cfg pc fe u).session.processed_files +
          (uploadProjectIntelligent cfg pc fe u).session.failed_files ≤
        (uploadProjectIntelligent cfg pc fe u).session.total_files) ∧
    ((uploadProjectIntelligent cfg pc fe u).outcome.isOk = true →
      cfg.parser_service_enabled = false ∨ (parserCallFails pc).isSome = true →
      (uploadProjectIntelligent cfg pc fe u).session.processed_files +
          (uploadProjectIntelligent cfg pc fe u).session.failed_files =
        (uploadProjectIntelligent cfg pc fe u).session.total_files) := by
  cases hex : extractProjectFiles cfg u with
  | error e =>
    obtain ⟨code, detail⟩ := e
    simp only [uploadProjectIntelligent, hex]
    exact ⟨fun _ => Nat.le_refl _, fun hok _ => absurd hok Bool.false_ne_true⟩
  | ok files =>
    simp only [uploadProjectIntelligent, hex]
    cases hpe : cfg.parser_service_enabled
    · obtain ⟨hm, hid, hcnt, htot, hmeth, hstat, es, herr⟩ :=
        uploadDirect_spec fe 1 { total_files := files.length } files rfl
      constructor
      · intro _
        show (uploadDirect fe 1 { total_files := files.length } files).2.1.processed_files +
            (uploadDirect fe 1 { total_files := files.length } files).2.1.failed_files ≤
          (uploadDirect fe 1 { total_files := files.length } files).2.1.total_files
        exact Nat.le_of_eq (hcnt.trans htot.symm)
      · intro _ _
        show (uploadDirect fe 1 { total_files := files.length } files).2.1.processed_files +
            (uploadDirect fe 1 { total_files := files.length } files).2.1.failed_files =
          (uploadDirect fe 1 { total_files := files.length } files).2.1.total_files
        exact hcnt.trans htot.symm
    · cases hcall : parserCallFails pc with
      | some r =>
        rw [uploadViaParser_error pc 1 _ files r hcall]
        obtain ⟨hm, hid, hcnt, htot, hmeth, hstat, es, herr⟩ :=
          uploadDirect_spec fe 1
            { upload_method := .direct
              total_files := files.length
              errors := ["Parser failed: " ++ r] } files rfl
        constructor
        · intro _
          show (uploadDirect fe 1
              { upload_method := .direct
                total_files := files.length
                errors := ["Parser failed: " ++ r] } files).2.1.processed_files +
              (uploadDirect fe 1
                { upload_method := .direct
                  total_files := files.length
                  errors := ["Parser failed: " ++ r] } files).2.1.failed_files ≤
            (uploadDirect fe 1
              { upload_method := .direct
                total_files := files.length
                errors := ["Parser failed: " ++ r] } files).2.1.total_files
          exact Nat.le_of_eq (hcnt.trans htot.symm)
        · intro _ _
          show (uploadDirect fe 1
              { upload_method := .direct
                total_files := files.length
                errors := ["Parser failed: " ++ r] } files).2.1.processed_files +
              (uploadDirect fe 1
                { upload_method := .direct
                  total_files := files.length
                  errors := ["Parser failed: " ++ r] } files).2.1.failed_files =
            (uploadDirect fe 1
              { upload_method := .direct
                total_files := files.length
                errors := ["Parser failed: " ++ r] } files).2.1.total_files
          exact hcnt.trans htot.symm
      | none =>
        cases pc with
        | transportError m => simp [parserCallFails] at hcall
        | statusError c => simp [parserCallFails] at hcall
        | response ok err ver dataF =>
          cases ok
          · simp [parserCallFails] at hcall
          · constructor
            · intro _
              show files.length + 0 ≤ files.length
              exact Nat.le_of_eq (Nat.add_zero _)
            · intro _ hdisj
              cases hdisj with
              | inl h => exact absurd h (by decide)
              | inr h => simp [parserCallFails] at h

/-- When extraction and filtering succeed, the orchestrator always
returns normally (even when every file of a Direct run fails): the only
errors raised to the caller come from the extraction phase. -/
theorem outcome_ok_of_extract_ok (cfg : Config) (pc : ParserCall)
    (fe : FileRec → Option String) (u : Upload) (files : List FileRec)
    (hex : extractProjectFiles cfg u = .ok files) :
    ∃ n, (uploadProjectIntelligent cfg pc fe u).outcome = .ok n := by
  simp only [uploadProjectIntelligent, hex]
  cases hpe : cfg.parser_service_enabled
  · exact ⟨_, rfl⟩
  · cases pc with
    | transportError m => exact ⟨_, rfl⟩
    | statusError c => exact ⟨_, rfl⟩
    | response ok err ver dataF =>
      cases ok
      · exact ⟨_, rfl⟩
      · exact ⟨_, rfl⟩

/-- A failing extraction phase surfaces at the orchestrator boundary as
the HTTP 500 `Upload failed: ...` error wrapping the phase's detail. -/
theorem upload_outcome_of_extract_error (cfg : Config) (pc : ParserCall)
    (fe : FileRec → Option String) (u : Upload) (code : Nat) (detail : String)
    (hex : extractProjectFiles cfg u = .error (code, detail)) :
    (uploadProjectIntelligent cfg pc fe u).outcome =
      .error (500, "Upload failed: " ++ detail) := by
  simp only [uploadProjectIntelligent, hex]

/-! ### C8 — aggregate size cap -/

/-- C8: an upload whose payload exceeds the configured project-size cap
fails with the HTTP 413 payload-too-large detail wrapped in the
orchestrator's 500, before any extraction or strategy work: the result
is identical for any archive contents, any parser behaviour and any
per-file write behaviour, no Project or ProjectFile row is written, and
the session is failed. -/
theorem c8_size_cap (cfg : Config) (pc pc2 : ParserCall)
    (fe fe2 : FileRec → Option String) (fn : String) (payload : List Nat)
    (entries entries2 : List ZipEntry)
    (hbig : cfg.max_project_size * 1024 * 1024 < payload.length) :
    uploadProjectIntelligent cfg pc fe ⟨fn, payload, entries⟩ =
      uploadProjectIntelligent cfg pc2 fe2 ⟨fn, payload, entries2⟩ ∧
    (uploadProjectIntelligent cfg pc fe ⟨fn, payload, entries⟩).outcome =
      .error (500, "Upload failed: " ++ ("File too large. Max size: " ++
        toString cfg.max_project_size ++ "MB")) ∧
    (uploadProjectIntelligent cfg pc fe ⟨fn, payload, entries⟩).projects = [] ∧
    (uploadProjectIntelligent cfg pc fe ⟨fn, payload, entries⟩).files = [] ∧
    (uploadProjectIntelligent cfg pc fe ⟨fn, payload, entries⟩).session.status =
      .failed := by
  have hex : ∀ es : List ZipEntry,
      extractProjectFiles cfg ⟨fn, payload, es⟩ =
        .error (413, "File too large. Max size: " ++
          toString cfg.max_project_size ++ "MB") := by
    intro es
    rw [extractProjectFiles, if_pos hbig]
  refine ⟨?_, ?_, ?_, ?_, ?_⟩ <;> simp only [uploadProjectIntelligent, hex]

/-- C8 witness: a payload one byte over a 1 MB cap, with arbitrary
archive entries, parser behaviour and file-write behaviour. -/
theorem c8_size_cap_witness :
    ({ max_project_size := 1 : Config }.max_project_size * 1024 * 1024 <
      (List.replicate 1048577 (0 : Nat)).length) ∧
    (uploadProjectIntelligent { max_project_size := 1 } (.statusError 502)
      (fun _ => none)
      ⟨"big.zip", List.replicate 1048577 0, []⟩).session.status = .failed ∧
    (uploadProjectIntelligent { max_project_size := 1 } (.statusError 502)
      (fun _ => none)
      ⟨"big.zip", List.replicate 1048577 0, []⟩).projects = [] :=
  ⟨by simp only [List.length_replicate]; decide,
   (c8_size_cap { max_project_size := 1 } (.statusError 502) (.statusError 502)
     (fun _ => none) (fun _ => none) "big.zip" (List.replicate 1048577 0) [] []
     (by simp only [List.length_replicate]; decide)).2.2.2.2,
   (c8_size_cap { max_project_size := 1 } (.statusError 502) (.statusError 502)
     (fun _ => none) (fun _ => none) "big.zip" (List.replicate 1048577 0) [] []
     (by simp only [List.length_replicate]; decide)).2.2.1⟩

/-! ### C9 — failures mark the session -/

/-- C9: every upload failure raised to the caller leaves the session in
the `failed` state with a non-empty error list — the orchestrator's
single catch-all appends the error before re-raising the generic
ingestion failure. -/
theorem c9_failure_marks_session (cfg : Config) (pc : ParserCall)
    (fe : FileRec → Option String) (u : Upload) (err : Nat × String)
    (hraise : (uploadProjectIntelligent cfg pc fe u).outcome = .error err) :
    (uploadProjectIntelligent cfg pc fe u).session.status = .failed ∧
    (uploadProjectIntelligent cfg pc fe u).session.errors ≠ [] := by
  cases hex : extractProjectFiles cfg u with
  | error e =>
    obtain ⟨code, detail⟩ := e
    constructor
    · simp [uploadProjectIntelligent, hex]
    · simp [uploadProjectIntelligent, hex]
  | ok files =>
    exfalso
    obtain ⟨n, hn⟩ := outcome_ok_of_extract_ok cfg pc fe u files hex
    rw [hn] at hraise
    exact Except.noConfusion hraise

/-- C9 witness: the oversize upload raises, and the session is left
failed with a non-empty error list. -/
theorem c9_failure_marks_session_witness :
    (uploadProjectIntelligent { max_project_size := 1 } (.statusError 502)
        (fun _ => none) ⟨"big.zip", List.replicate 1048577 0, []⟩).outcome =
      .error (500, "Upload failed: " ++ ("File too large. Max size: " ++
        toString ({ max_project_size := 1 : Config }).max_project_size ++ "MB")) ∧
    (uploadProjectIntelligent { max_project_size := 1 } (.statusError 502)
        (fun _ => none)
        ⟨"big.zip", List.replicate 1048577 0, []⟩).session.status = .failed ∧
    (uploadProjectIntelligent { max_project_size := 1 } (.statusError 502)
        (fun _ => none)
        ⟨"big.zip", List.replicate 1048577 0, []⟩).session.errors ≠ [] := by
  have hex0 : extractProjectFiles { max_project_size := 1 }
      ⟨"big.zip", List.replicate 1048577 0, []⟩ =
      .error (413, "File too large. Max size: " ++
        toString ({ max_project_size := 1 : Config }).max_project_size ++ "MB") := by
    rw [extractProjectFiles, if_pos (by simp only [List.length_replicate]; decide :
      ({ max_project_size := 1 : Config }).max_project_size * 1024 * 1024 <
        (List.replicate 1048577 (0 : Nat)).length)]
  have herr := upload_outcome_of_extract_error { max_project_size := 1 }
    (.statusError 502) (fun _ => none)
    ⟨"big.zip", List.replicate 1048577 0, []⟩ 413
    ("File too large. Max size: " ++
      toString ({ max_project_size := 1 : Config }).max_project_size ++ "MB") hex0
  exact ⟨herr,
    (c9_failure_marks_session { max_project_size := 1 } (.statusError 502)
      (fun _ => none) ⟨"big.zip", List.replicate 1048577 0, []⟩ _ herr).1,
    (c9_failure_marks_session { max_project_size := 1 } (.statusError 502)
      (fun _ => none) ⟨"big.zip", List.replicate 1048577 0, []⟩ _ herr).2⟩

/-! ### C10 — single-file uploads are never binary -/

/-- C10: for a non-archive upload the produced record is built from the
lossily decoded payload without an `is_binary` key; the persisted
ProjectFile therefore gets `is_binary = false` and a line count computed
from the lossily decoded text, for every byte sequence — valid UTF-8 or
not. -/
theorem c10_single_file_not_binary (cfg : Config) (fn : String)
    (payload : List Nat) (entries : List ZipEntry) (pid : Nat)
    (hna : isArchiveName fn = false)
    (hsz : ¬ cfg.max_project_size * 1024 * 1024 < payload.length) :
    extractProjectFiles cfg ⟨fn, payload, entries⟩ =
      .ok (filterFiles cfg
        [{ filename := fn, relative_path := fn,
           content := utf8DecodeIgnore payload, size := payload.length }]) ∧
    ({ filename := fn, relative_path := fn,
       content := utf8DecodeIgnore payload,
       size := payload.length : FileRec }).is_binary = none ∧
    (createProjectFileDirect pid
      { filename := fn, relative_path := fn,
        content := utf8DecodeIgnore payload,
        size := payload.length }).is_binary = false ∧
    (createProjectFileDirect pid
      { filename := fn, relative_path := fn,
        content := utf8DecodeIgnore payload,
        size := payload.length }).loc =
      pyLineCount (utf8DecodeIgnore payload) := by
  refine ⟨?_, rfl, rfl, rfl⟩
  rw [extractProjectFiles, if_neg hsz]
  simp only [hna, Bool.false_eq_true, if_false]

/-- C10 witness: a payload that is not valid UTF-8 (a stray 255 byte)
still yields a non-binary record whose line count is computed from the
lossily decoded text `hi` newline `b`. -/
theorem c10_single_file_not_binary_witness :
    isArchiveName "data.cbl" = false ∧
    utf8Valid [255, 104, 105, 10, 98] = false ∧
    (createProjectFileDirect 1
      { filename := "data.cbl", relative_path := "data.cbl",
        content := utf8DecodeIgnore [255, 104, 105, 10, 98],
        size := [255, 104, 105, 10, 98].length }).is_binary = false ∧
    (createProjectFileDirect 1
      { filename := "data.cbl", relative_path := "data.cbl",
        content := utf8DecodeIgnore [255, 104, 105, 10, 98],
        size := [255, 104, 105, 10, 98].length }).loc = 2 :=
  ⟨by decide, by decide,
   (c10_single_file_not_binary {} "data.cbl" [255, 104, 105, 10, 98] [] 1
     (by decide) (by decide)).2.2.1,
   ((c10_single_file_not_binary {} "data.cbl" [255, 104, 105, 10, 98] [] 1
     (by decide) (by decide)).2.2.2).trans (by decide)⟩

/-! ### C1 — atomicity of the Parser strategy's writes -/

/-- Folding persistence operations that contain no commit leaves the
visible (committed) part of the store untouched. -/
theorem foldPOp_no_commit (ops : List POp) (h : POp.commitOp ∉ ops) :
    ∀ s : PTxState,
      (ops.foldl stepPOp s).dbProject = s.dbProject ∧
      (ops.foldl stepPOp s).dbFiles = s.dbFiles ∧
      (ops.foldl stepPOp s).dbFinal = s.dbFinal := by
  induction ops with
  | nil => exact fun s => ⟨rfl, rfl, rfl⟩
  | cons op rest ih =>
    intro s
    have hop : op ≠ .commitOp := fun he => h (he ▸ List.mem_cons_self _ _)
    have hrest : POp.commitOp ∉ rest := fun hm => h (List.mem_cons_of_mem _ hm)
    rw [List.foldl_cons]
    obtain ⟨h1, h2, h3⟩ := ih hrest (stepPOp s op)
    cases op with
    | addProject => exact ⟨h1, h2, h3⟩
    | addFile f => exact ⟨h1, h2, h3⟩
    | finalizeStatuses => exact ⟨h1, h2, h3⟩
    | commitOp => exact absurd rfl hop

/-- Folding the per-file `db.add` operations only grows the pending file
buffer. -/
theorem foldPOp_addFiles (fs : List FileRec) :
    ∀ s : PTxState,
      (fs.map POp.addFile).foldl stepPOp s =
        { s with pendingFiles := s.pendingFiles ++ fs } := by
  induction fs with
  | nil => intro s; simp
  | cons f rest ih =>
    intro s
    rw [List.map_cons, List.foldl_cons, ih]
    simp [stepPOp]

/-- C1 counterexample: inject a failure at operation index 3 of a
two-file Parser attempt — after the project row's own commit, during the
file adds.  Zero ProjectFile rows are visible, but the Project row IS
visible, refuting the claim that nothing from the attempt is visible. -/
theorem c1_counterexample :
    3 < (parserOps
      [{ filename := "a.cbl", relative_path := "a.cbl", content := "x", size := 1 },
       { filename := "b.cbl", relative_path := "b.cbl", content := "y", size := 1 }]).length ∧
    (runParserWrites
      [{ filename := "a.cbl", relative_path := "a.cbl", content := "x", size := 1 },
       { filename := "b.cbl", relative_path := "b.cbl", content := "y", size := 1 }]
      (some 3)).dbProject = true ∧
    (runParserWrites
      [{ filename := "a.cbl", relative_path := "a.cbl", content := "x", size := 1 },
       { filename := "b.cbl", relative_path := "b.cbl", content := "y", size := 1 }]
      (some 3)).dbFiles = [] := by decide

/-- C1 (amended): the ProjectFile creations and the final session and
project status updates form one atomic unit — a failure injected at any
point of the attempt leaves zero ProjectFile rows and no status update
visible, and only the full run makes them all visible at once — but the
Project row is committed separately beforehand, so it is already visible
whenever the failure comes after operation index 2. -/
theorem c1_parser_atomicity (files : List FileRec) (k : Nat)
    (hk : k < (parserOps files).length) :
    (runParserWrites files (some k)).dbFiles = [] ∧
    (runParserWrites files (some k)).dbFinal = false ∧
    ((runParserWrites files (some k)).dbProject = true ↔ 2 ≤ k) ∧
    (runParserWrites files none).dbFiles = files ∧
    (runParserWrites files none).dbFinal = true ∧
    (runParserWrites files none).dbProject = true := by
  have hops : parserOps files =
      [POp.addProject, POp.commitOp] ++
        ((files.map POp.addFile ++ [POp.finalizeStatuses]) ++ [POp.commitOp]) := by
    simp [parserOps]
  have hfull : (runParserWrites files none).dbFiles = files ∧
      (runParserWrites files none).dbFinal = true ∧
      (runParserWrites files none).dbProject = true := by
    have hrunf : runParserWrites files none =
        stepPOp (stepPOp ((files.map POp.addFile).foldl stepPOp
          (stepPOp (stepPOp {} POp.addProject) POp.commitOp))
          POp.finalizeStatuses) POp.commitOp := by
      simp only [runParserWrites, hops, List.foldl_append, List.foldl_cons,
        List.foldl_nil]
    rw [hrunf, foldPOp_addFiles]
    exact ⟨rfl, rfl, rfl⟩
  have hpart : (runParserWrites files (some k)).dbFiles = [] ∧
      (runParserWrites files (some k)).dbFinal = false ∧
      ((runParserWrites files (some k)).dbProject = true ↔ 2 ≤ k) := by
    match k, hk with
    | 0, _ => exact ⟨rfl, rfl, by simp [runParserWrites]⟩
    | 1, _ => exact ⟨rfl, rfl, iff_of_false Bool.false_ne_true (by omega)⟩
    | (m + 2), hk =>
      have hmle : m ≤ (files.map POp.addFile ++ [POp.finalizeStatuses]).length := by
        have hlen : (parserOps files).length = files.length + 4 := by
          simp [parserOps]
        simp only [List.length_append, List.length_map, List.length_cons,
          List.length_nil]
        omega
      have hm2 : m + 2 = ([POp.addProject, POp.commitOp] : List POp).length + m := by
        show m + 2 = 2 + m
        omega
      have htake : (parserOps files).take (m + 2) =
          [POp.addProject, POp.commitOp] ++
            (files.map POp.addFile ++ [POp.finalizeStatuses]).take m := by
        rw [hops, hm2, List.take_append, List.take_append_of_le_length hmle]
      have hnc : POp.commitOp ∉
          (files.map POp.addFile ++ [POp.finalizeStatuses]).take m := by
        intro hmem
        have hmem2 := List.take_subset m _ hmem
        rcases List.mem_append.mp hmem2 with h1 | h1
        · obtain ⟨f, _, hf⟩ := List.mem_map.mp h1
          exact POp.noConfusion hf
        · simp at h1
      obtain ⟨hp, hf, hfin⟩ :=
        foldPOp_no_commit _ hnc (stepPOp (stepPOp {} POp.addProject) POp.commitOp)
      have hrun : runParserWrites files (some (m + 2)) =
          ((files.map POp.addFile ++ [POp.finalizeStatuses]).take m).foldl stepPOp
            (stepPOp (stepPOp {} POp.addProject) POp.commitOp) := by
        simp only [runParserWrites, htake, List.foldl_append, List.foldl_cons,
          List.foldl_nil]
      rw [hrun]
      exact ⟨hf.trans rfl, hfin.trans rfl,
        iff_of_true (hp.trans rfl) (Nat.le_add_left 2 m)⟩
  exact ⟨hpart.1, hpart.2.1, hpart.2.2, hfull.1, hfull.2.1, hfull.2.2⟩

/-- C1 witness: the amended atomicity law at a one-file attempt with the
failure injected right after the project commit, plus the full run. -/
theorem c1_parser_atomicity_witness :
    2 < (parserOps [{ filename := "a.cbl", relative_path := "a.cbl", content := "x", size := 1 }]).length ∧
    (runParserWrites [{ filename := "a.cbl", relative_path := "a.cbl", content := "x", size := 1 }] (some 2)).dbFiles = [] ∧
    ((runParserWrites [{ filename := "a.cbl", relative_path := "a.cbl", content := "x", size := 1 }] (some 2)).dbProject = true ↔ 2 ≤ 2) ∧
    (runParserWrites [{ filename := "a.cbl", relative_path := "a.cbl", content := "x", size := 1 }] none).dbFiles =
      [{ filename := "a.cbl", relative_path := "a.cbl", content := "x", size := 1 }] :=
  ⟨by decide,
   (c1_parser_atomicity _ 2 (by decide)).1,
   (c1_parser_atomicity _ 2 (by decide)).2.2.1,
   (c1_parser_atomicity _ 2 (by decide)).2.2.2.1⟩

end Realm
